import Mathlib

/-!
# Verification of the flow-go-sdk event model and HTTP access client

A shallow embedding of the repository's two source files:

* `event.go` (the event model): the `Event` record, its canonical RLP
  identity and fingerprint encodings, the SHA3-based event identifier,
  the chunk events-hash aggregator, and the account-created event view.
* `client/http/handler.go`: the REST access-API handler, its GET/POST
  transport primitives and the domain operations built on them.

Go byte slices are modelled as `List Nat` with the side condition that every
element is below 256; Go strings that are only ever treated as byte payloads
(event types, payloads, transaction identifiers) are modelled the same way.
Go `int`/`uint` values are modelled as `Nat` with explicit `% 2^32` or
`% 2^64` where the source performs a narrowing conversion.

External dependencies that the repository only calls (the RLP encoder used
via `mustRLPEncode`, the SHA3-256 hasher behind `defaultEntityHasher`, the
Cadence canonical JSON encoder `jsoncdc.Encode`, the flow-go Merkle routine
`flow.EventsMerkleRootHash`, and the Go standard library's
`url.ParseRequestURI` and JSON decoder) are either implemented faithfully
(RLP, hex) or modelled from the specification as deterministic stand-ins;
each such definition carries a doc comment saying so.
-/

namespace FlowSDK

/-! ## Bytes, big-endian integers, hex -/

/-- A Go byte slice: every element is an actual byte. -/
def AllBytes (l : List Nat) : Prop := ∀ x ∈ l, x < 256

instance : DecidablePred AllBytes := fun l =>
  List.decidableBAll (fun x => x < 256) l

/-- Fuel-driven worker for `beBytes`; `fuel ≥ n` is always enough because the
value shrinks by a factor of 256 each step. -/
def beBytesAux : Nat → Nat → List Nat
  | 0, _ => []
  | _ + 1, 0 => []
  | fuel + 1, n + 1 => beBytesAux fuel ((n + 1) / 256) ++ [(n + 1) % 256]

/-- Minimal big-endian byte representation of a natural number (`0 ↦ []`),
as used by the RLP encoding of unsigned integers and of long-form lengths. -/
def beBytes (n : Nat) : List Nat := beBytesAux n n

/-- Big-endian interpretation of a byte list; left inverse of `beBytes`. -/
def fromBE (l : List Nat) : Nat := l.foldl (fun acc b => acc * 256 + b) 0

/-- Lowercase hexadecimal digit for a value below 16. -/
def hexDigit (n : Nat) : Char :=
  if n < 10 then Char.ofNat (48 + n) else Char.ofNat (87 + n)

/-- Lowercase hex rendering of a byte list, as a character list. -/
def hexRenderChars : List Nat → List Char
  | [] => []
  | b :: bs => hexDigit (b / 16) :: hexDigit (b % 16) :: hexRenderChars bs

/-- Lowercase hex rendering of a byte list (Go: `hex.EncodeToString`, and the
`Hex`/`String` renderings of digests and identifiers). -/
def hexRender (bs : List Nat) : String := String.mk (hexRenderChars bs)

/-- Value of one hex digit character (Go: `hex.DecodeString`, per digit). -/
def hexDigitVal (c : Char) : Option Nat :=
  if 48 ≤ c.toNat ∧ c.toNat ≤ 57 then some (c.toNat - 48)
  else if 97 ≤ c.toNat ∧ c.toNat ≤ 102 then some (c.toNat - 87)
  else none

/-- Hex decoding of a character list, two digits per byte. -/
def hexDecodePairs : List Char → Option (List Nat)
  | [] => some []
  | [_] => none
  | a :: b :: rest =>
    match hexDigitVal a, hexDigitVal b, hexDecodePairs rest with
    | some x, some y, some l => some ((x * 16 + y) :: l)
    | _, _, _ => none

/-- Go `hex.DecodeString`: decodes hex text into raw bytes, failing on odd
length or non-hex characters. -/
def hexDecodeString (s : String) : Option (List Nat) := hexDecodePairs s.data

/-! ## RLP encoding

The SDK's `mustRLPEncode` serializes a Go struct with RLP (each field encoded
as an RLP item, the struct as the RLP list of those items).  The fields that
occur in this repository are byte slices, strings (encoded as their bytes)
and unsigned integers (encoded as their minimal big-endian bytes). -/

/-- RLP header for a payload of length `len`: `base` is `0x80` for byte
strings and `0xC0` for lists. -/
def rlpHeader (base len : Nat) : List Nat :=
  if len ≤ 55 then [base + len]
  else (base + 55 + (beBytes len).length) :: beBytes len

/-- RLP encoding of a byte string: a single byte below `0x80` is its own
encoding; otherwise a header followed by the bytes. -/
def rlpEncodeBytes : List Nat → List Nat
  | [x] => if x < 128 then [x] else rlpHeader 128 1 ++ [x]
  | b => rlpHeader 128 b.length ++ b

/-- RLP encoding of an unsigned integer: its minimal big-endian bytes,
encoded as a byte string. -/
def rlpEncodeUint (n : Nat) : List Nat := rlpEncodeBytes (beBytes n)

/-- RLP encoding of a list given the already-encoded items. -/
def rlpList (items : List (List Nat)) : List Nat :=
  rlpHeader 192 items.flatten.length ++ items.flatten

/-- Parses an RLP header with the given base byte, returning the payload
length and the remainder.  Inverse of `rlpHeader` (see
`parseHeader_rlpHeader`); used to prove the encodings injective. -/
def parseHeader (base : Nat) : List Nat → Option (Nat × List Nat)
  | [] => none
  | c :: rest =>
    if c ≤ base + 55 then some (c - base, rest)
    else if c - (base + 55) ≤ rest.length then
      some (fromBE (rest.take (c - (base + 55))), rest.drop (c - (base + 55)))
    else none

/-- Parses one RLP byte-string item, returning the bytes and the remainder.
Inverse of `rlpEncodeBytes` (see `rlpDecodeBytes_encode`). -/
def rlpDecodeBytes (l : List Nat) : Option (List Nat × List Nat) :=
  match l with
  | [] => none
  | c :: rest =>
    if c < 128 then some ([c], rest)
    else
      match parseHeader 128 l with
      | some (n, r) => if n ≤ r.length then some (r.take n, r.drop n) else none
      | none => none

/-! ## The event model (`event.go`) -/

/-- A Cadence value as far as this repository inspects it: the account-created
view only ever looks for an address-typed field; every other shape is opaque. -/
inductive CadenceValue
  | address (bytes : List Nat)
  | other (tag : Nat)
  deriving DecidableEq

/-- `cadence.Event`: a declarative structured value with an ordered list of
field values (`Fields`). -/
structure CadenceEvent where
  fields : List CadenceValue
  deriving DecidableEq

/-- The event record (`flow.Event` of the SDK).  `EType` is the Go `Type`
field (a qualified event type name), modelled as its UTF-8 bytes;
`TransactionID` is the 32-byte `Identifier` of the emitting transaction. -/
structure Event where
  EType : List Nat
  TransactionID : List Nat
  TransactionIndex : Nat
  EventIndex : Nat
  Value : CadenceEvent
  Payload : List Nat
  deriving DecidableEq

/-- A well-formed event: its byte-slice fields hold bytes and its
transaction identifier is 32 bytes wide. -/
def ValidEvent (e : Event) : Prop :=
  AllBytes e.EType ∧ AllBytes e.TransactionID ∧ e.TransactionID.length = 32 ∧
    AllBytes e.Payload

/-- `Event.Encode`: the canonical RLP encoding of the identity projection
`{TransactionID bytes, EventIndex as uint}` (`uint` is 64-bit in Go). -/
def Event.Encode (e : Event) : List Nat :=
  rlpList [rlpEncodeBytes e.TransactionID, rlpEncodeUint (e.EventIndex % 2 ^ 64)]

/-- Modelled from the spec: the SHA3-256 digest supplied by the external
cryptographic hashing utility behind `defaultEntityHasher` (an opaque
third-party dependency).  Only determinism and the 32-byte output shape are
relied upon by any theorem below, so it is modelled as a simple deterministic
32-byte digest. -/
def sha3_256 (msg : List Nat) : List Nat :=
  (List.range 32).map
    (fun i => msg.foldl (fun acc b => (acc * 257 + b + 1) % 4294967291) (i + 31) % 256)

/-- `Event.ID`: the lowercase-hex rendering of the SHA3-256 digest of the
identity projection. -/
def Event.ID (e : Event) : String := hexRender (sha3_256 e.Encode)

/-- `Event.Fingerprint`: the canonical RLP encoding of the full tuple
`{TxID bytes, EventIndex as uint32, Type, TransactionIndex as uint32,
Payload bytes}`.  The two index fields are narrowed to `uint32` by the
source (`uint32(e.EventIndex)`, `uint32(e.TransactionIndex)`). -/
def Event.Fingerprint (e : Event) : List Nat :=
  rlpList
    [rlpEncodeBytes e.TransactionID,
     rlpEncodeUint (e.EventIndex % 2 ^ 32),
     rlpEncodeBytes e.EType,
     rlpEncodeUint (e.TransactionIndex % 2 ^ 32),
     rlpEncodeBytes e.Payload]

/-! ## Events hash aggregator -/

/-- Error kinds of `CalculateEventsHash` (Go returns plain `error` values;
the three failure sites are distinguished here). -/
inductive HashFailure
  | encodingError
  | hashError
  | decodingError
  deriving DecidableEq

/-- The external chain domain library's event record (`flow.Event` of
flow-go), as assembled by `sdkEventToFlow`: both indices are `uint32` and the
payload is the canonical JSON encoding of the value. -/
structure FlowEvent where
  EType : List Nat
  TransactionID : List Nat
  TransactionIndex : Nat
  EventIndex : Nat
  Payload : List Nat
  deriving DecidableEq

/-- Modelled from the spec: `jsoncdc.Encode`, the canonical JSON encoding of
a Cadence value (an opaque third-party dependency).  The theorems below rely
only on it being a function of the `Value` alone, which is exactly what the
source exhibits (`jsoncdc.Encode(event.Value)`); it is modelled as a total
deterministic byte encoding of the value's shape. -/
def jsoncdcEncode (v : CadenceEvent) : Option (List Nat) :=
  some (v.fields.flatMap (fun f =>
    match f with
    | CadenceValue.address bs => 1 :: bs.map (· % 256)
    | CadenceValue.other t => [2, t % 256]))

/-- `sdkEventToFlow`: re-derives the payload by canonically JSON-encoding
`Value` (the stored `Payload` field is never read) and widens both indices
to `uint32`. -/
def sdkEventToFlow (event : Event) : Except HashFailure FlowEvent :=
  match jsoncdcEncode event.Value with
  | none => Except.error HashFailure.encodingError
  | some payload =>
    Except.ok
      { EType := event.EType
        TransactionID := event.TransactionID
        TransactionIndex := event.TransactionIndex % 2 ^ 32
        EventIndex := event.EventIndex % 2 ^ 32
        Payload := payload }

/-- `sdkEventsToFlow`: converts the events in order, stopping at the first
failure. -/
def sdkEventsToFlow : List Event → Except HashFailure (List FlowEvent)
  | [] => Except.ok []
  | e :: es =>
    match sdkEventToFlow e with
    | Except.error err => Except.error err
    | Except.ok fe =>
      match sdkEventsToFlow es with
      | Except.error err => Except.error err
      | Except.ok fes => Except.ok (fe :: fes)

/-- Deterministic mixing of one flow event record into a running accumulator;
ingredient of the modelled Merkle root below. -/
def flowEventMix (e : FlowEvent) : Nat :=
  fromBE e.EType + fromBE e.TransactionID + e.TransactionIndex +
    e.EventIndex + fromBE e.Payload

/-- Modelled from the spec: `flow.EventsMerkleRootHash`, the external chain
domain library's order-sensitive Merkle root over a sequence of event records
(an opaque third-party dependency).  Per spec §4.2 an empty sequence yields a
well-defined root without error, so the stand-in is a total deterministic
32-byte content identifier. -/
def EventsMerkleRootHash (events : List FlowEvent) :
    Except HashFailure (List Nat) :=
  Except.ok ((List.range 32).map
    (fun i =>
      events.foldl (fun acc e => (acc * 131 + flowEventMix e) % 1000000007)
        (i + 7) % 256))

/-- `CalculateEventsHash`: converts the events, takes the Merkle root, renders
the identifier as hex text and decodes that text back into raw bytes. -/
def CalculateEventsHash (es : List Event) : Except HashFailure (List Nat) :=
  match sdkEventsToFlow es with
  | Except.error e => Except.error e
  | Except.ok events =>
    match EventsMerkleRootHash events with
    | Except.error e => Except.error e
    | Except.ok id =>
      match hexDecodeString (hexRender id) with
      | none => Except.error HashFailure.decodingError
      | some h => Except.ok h

/-! ## Account-created event view -/

/-- The `Address` domain type (a fixed-width account address value). -/
structure Address where
  bytes : List Nat
  deriving DecidableEq

/-- Modelled from the spec: `BytesToAddress` (SDK code outside the given
sources) converts raw bytes into the `Address` domain type. -/
def BytesToAddress (bs : List Nat) : Address := Address.mk bs

/-- `AccountCreatedEvent` is a reinterpretation of an `Event` known to carry
the built-in account-creation type. -/
def AccountCreatedEvent := Event

/-- `AccountCreatedEvent.Address`: reads the zeroth entry of the underlying
event's `Value.Fields`, requires it to be address-typed, and converts its raw
bytes to an `Address`.  The Go type assertion panics on violation; the panic
is modelled as `none`. -/
def AccountCreatedEvent.Address (evt : AccountCreatedEvent) : Option Address :=
  match (Event.Value evt).fields with
  | CadenceValue.address bs :: _ => some (BytesToAddress bs)
  | _ => none

/-! ## HTTP access-API client (`client/http/handler.go`) -/

/-- A parsed URL as this client uses it: a scheme (empty for a rooted path),
the remainder of the URI, and the structured query.  Query keys and values
are kept structural (the source's `url.Values.Encode` percent-escaping and
key sorting are not observable through any claim below, which all use at most
one pair). -/
structure URL where
  scheme : String
  rest : String
  query : List (String × String)
  deriving DecidableEq

/-- Is `c` allowed inside a URL scheme after the leading letter? -/
def isSchemeChar (c : Char) : Bool :=
  c.isAlpha || c.isDigit || c = '+' || c = '-' || c = '.'

/-- Splits a character list at its first colon, failing when there is none. -/
def schemeSplit : List Char → Option (List Char × List Char)
  | [] => none
  | c :: cs =>
    if c = ':' then some ([], cs)
    else
      match schemeSplit cs with
      | some (a, b) => some (c :: a, b)
      | none => none

/-- Modelled from the spec: the Go standard library's `url.ParseRequestURI`
(a third-party dependency).  It accepts an absolute URI (a valid scheme, a
letter followed by scheme characters, before the first colon) or a rooted
path (leading slash), and rejects everything else — in particular the empty
string and scheme-less relative strings. -/
def parseRequestURI (s : String) : Option URL :=
  match s.data with
  | [] => none
  | '/' :: _ => some (URL.mk "" s [])
  | c :: _ =>
    match schemeSplit s.data with
    | some (sch, rest) =>
      if !sch.isEmpty && c.isAlpha && sch.all isSchemeChar then
        some (URL.mk (String.mk sch) (String.mk rest) [])
      else none
    | none => none

/-- Rendering of the structured query as `k=v` pairs joined by `&`. -/
def renderQueryItems : List (String × String) → String
  | [] => ""
  | [(k, v)] => k ++ "=" ++ v
  | (k, v) :: rest => k ++ "=" ++ v ++ "&" ++ renderQueryItems rest

/-- `url.URL.String`: the textual form used in error messages. -/
def urlString (u : URL) : String :=
  (if u.scheme = "" then u.rest else u.scheme ++ ":" ++ u.rest) ++
    (match u.query with
     | [] => ""
     | _ => "?" ++ renderQueryItems u.query)

/-- The handler configuration: a base endpoint string.  (The reusable HTTP
client reference carries no modelled state.) -/
structure Handler where
  base : String
  deriving DecidableEq

/-- `NewHandler`: accepts any base endpoint string; no validation is
performed (`// todo validate url`), so it never returns an error. -/
def NewHandler (baseUrl : String) : Except String Handler :=
  Except.ok (Handler.mk baseUrl)

/-- `NewDefaultEmulatorHandler`: preset local-emulator endpoint (note the
missing `//` after the scheme, preserved exactly as in the source). -/
def NewDefaultEmulatorHandler : Handler := Handler.mk "http:127.0.0.1:8888/v1"

/-- `NewDefaultTestnetHandler`: preset public test network endpoint. -/
def NewDefaultTestnetHandler : Handler :=
  Handler.mk "https://rest-testnet.onflow.org/v1/"

/-- `NewDefaultMainnetHandler`: preset public main network endpoint. -/
def NewDefaultMainnetHandler : Handler :=
  Handler.mk "https://rest-mainnet.onflow.org/v1/"

/-- `mustBuildURL`: concatenates the base with the path and parses the
result, silently discarding the parse error (`u, _ := url.ParseRequestURI`).
`none` stands for the nil `*url.URL` returned in the error case. -/
def mustBuildURL (base path : String) : Option URL :=
  parseRequestURI (base ++ path)

/-- The body of `models.ScriptsBody`, the script-execution request schema. -/
structure ScriptsBody where
  script : String
  arguments : List String
  deriving DecidableEq

/-- A request body: none (GET), caller-supplied raw bytes, or a marshalled
scripts body (the JSON wire encoding of `ScriptsBody` is kept structural —
the marshalling of two string fields never fails and its exact byte shape is
not observable through any claim). -/
inductive ReqBody
  | empty
  | raw (bytes : String)
  | scripts (b : ScriptsBody)
  deriving DecidableEq

/-- One HTTP request as handed to the underlying HTTP client. -/
structure Request where
  method : String
  url : URL
  body : ReqBody
  deriving DecidableEq

/-- The network's answer to one request: a transport failure from
`client.Get`/`client.Post`, or a status code with the fully read response
body. -/
inductive RoundTrip
  | fail (cause : String)
  | ok (status : Nat) (body : String)
  deriving DecidableEq

/-- The environment: what the network answers to each request.  Quantifying
over `Net` quantifies over every server behaviour. -/
def Net := Request → RoundTrip

/-- Client-side errors, kept structural; `render` produces the Go error
strings.  `transport` is `errors.Wrap` of a failed round trip, `httpStatus`
the `fmt.Errorf` for a status of 400 or greater, `decodeFail` the wrapped
JSON decoding failure, `ctxWrap` an operation-level `errors.Wrap`, and
`errorf` a plain `fmt.Errorf` message. -/
inductive ClientError
  | transport (method url cause : String)
  | httpStatus (method url : String) (code : Nat) (body : String)
  | decodeFail
  | errorf (msg : String)
  | ctxWrap (ctx : String) (e : ClientError)
  deriving DecidableEq

/-- The Go error message of a `ClientError` (`errors.Wrap(err, msg).Error()`
is `msg + ": " + err.Error()`). -/
def render : ClientError → String
  | ClientError.transport method url cause =>
    "HTTP " ++ method ++ " " ++ url ++ " failed: " ++ cause
  | ClientError.httpStatus method url code body =>
    "HTTP " ++ method ++ " " ++ url ++ " failed, status code: " ++
      toString code ++ ", response :" ++ body
  | ClientError.decodeFail => "JSON decoding failed"
  | ClientError.errorf msg => msg
  | ClientError.ctxWrap ctx e => ctx ++ ": " ++ render e

/-- `s` contains `sub` as a contiguous substring. -/
def ContainsSub (s sub : String) : Prop := ∃ a b : String, s = a ++ sub ++ b

deriving instance DecidableEq for Except

/-- The result of a client operation: either the Go return value, or a crash
(nil-pointer dereference) that never reaches the `return` statement. -/
inductive Outcome (γ : Type)
  | crash
  | ret (r : Except ClientError γ)
  deriving DecidableEq

/-- The transport primitive `get`: issues a GET, treats any status of 400 or
greater as failure (carrying the code and raw body), otherwise JSON-decodes
the body into the destination.  The destination's decoder is a parameter
(`json.Unmarshal` and the response schemas are third-party); every theorem
below holds for every decoder.  The context argument is ignored by the
source and therefore not modelled. -/
def get {γ : Type} (decode : String → Option γ) (u : URL) (net : Net) :
    Except ClientError γ :=
  match net (Request.mk "GET" u ReqBody.empty) with
  | RoundTrip.fail cause =>
    Except.error (ClientError.transport "GET" (urlString u) cause)
  | RoundTrip.ok status body =>
    if 400 ≤ status then
      Except.error (ClientError.httpStatus "GET" (urlString u) status body)
    else
      match decode body with
      | none => Except.error ClientError.decodeFail
      | some v => Except.ok v

/-- The transport primitive `post`: identical status-threshold and decoding
rules with POST-specific wrap messages and a request body. -/
def post {γ : Type} (decode : String → Option γ) (u : URL) (body : ReqBody)
    (net : Net) : Except ClientError γ :=
  match net (Request.mk "POST" u body) with
  | RoundTrip.fail cause =>
    Except.error (ClientError.transport "POST" (urlString u) cause)
  | RoundTrip.ok status respBody =>
    if 400 ≤ status then
      Except.error (ClientError.httpStatus "POST" (urlString u) status respBody)
    else
      match decode respBody with
      | none => Except.error ClientError.decodeFail
      | some v => Except.ok v

/-- Opaque decode target: one block (`models.Block`). -/
structure Block where
  raw : String
  deriving DecidableEq

/-- Opaque decode target: one account (`models.Account`). -/
structure Account where
  raw : String
  deriving DecidableEq

/-- Opaque decode target: one collection (`models.Collection`). -/
structure Collection where
  raw : String
  deriving DecidableEq

/-- Opaque decode target: one transaction (`models.Transaction`). -/
structure Transaction where
  raw : String
  deriving DecidableEq

/-- `getBlockByID`: GET `/blocks/{id}`, decoding into one block, wrapping
errors with "get block ID {id} failed". -/
def getBlockByID (blockDec : String → Option Block) (h : Handler) (ID : String)
    (net : Net) : Outcome Block :=
  match mustBuildURL h.base ("/blocks/" ++ ID) with
  | none => Outcome.crash
  | some u =>
    match get blockDec u net with
    | Except.error e =>
      Outcome.ret (Except.error
        (ClientError.ctxWrap ("get block ID " ++ ID ++ " failed") e))
    | Except.ok b => Outcome.ret (Except.ok b)

/-- `getBlockByHeight`: GET `/blocks?height={height}`.  The source declares
`var blocks []*models.Block` and passes `blocks` — not `&blocks` — to `get`,
so the JSON decode inside `get` writes into a copy the caller never sees and
the local slice stays nil; the decoded value returned by the modelled `get`
is correspondingly discarded and the empty local list is inspected instead.
The decoder parameter models `json.Unmarshal` into the by-value destination
(which succeeds on any valid JSON); every theorem holds for every decoder. -/
def getBlockByHeight {γ : Type} (jsonDec : String → Option γ) (h : Handler)
    (height : String) (net : Net) : Outcome (List Block) :=
  match mustBuildURL h.base "/blocks" with
  | none => Outcome.crash
  | some u0 =>
    let u := { u0 with query := u0.query ++ [("height", height)] }
    let blocks : List Block := []
    match get jsonDec u net with
    | Except.error e =>
      Outcome.ret (Except.error
        (ClientError.ctxWrap ("get block by height " ++ height ++ " failed") e))
    | Except.ok _ =>
      if blocks.length = 0 then
        Outcome.ret (Except.error (ClientError.errorf "blocks not found"))
      else Outcome.ret (Except.ok blocks)

/-- `getAccount`: GET `/accounts/{address}?height={height}`, wrapping errors
with "get account {address} failed". -/
def getAccount (accountDec : String → Option Account) (h : Handler)
    (address height : String) (net : Net) : Outcome Account :=
  match mustBuildURL h.base ("/accounts/" ++ address) with
  | none => Outcome.crash
  | some u0 =>
    let u := { u0 with query := u0.query ++ [("height", height)] }
    match get accountDec u net with
    | Except.error e =>
      Outcome.ret (Except.error
        (ClientError.ctxWrap ("get account " ++ address ++ " failed") e))
    | Except.ok a => Outcome.ret (Except.ok a)

/-- `getCollection`: GET `/collections/{id}`; errors are propagated
unwrapped. -/
def getCollection (collectionDec : String → Option Collection) (h : Handler)
    (ID : String) (net : Net) : Outcome Collection :=
  match mustBuildURL h.base ("/collections/" ++ ID) with
  | none => Outcome.crash
  | some u =>
    match get collectionDec u net with
    | Except.error e => Outcome.ret (Except.error e)
    | Except.ok c => Outcome.ret (Except.ok c)

/-- `executeScriptAt`: POST `/scripts` with caller-supplied query pairs and a
JSON body `{script, arguments}`; the result is decoded into a string and
errors are propagated unwrapped.  (The source's `json.Marshal` of the two
string fields cannot fail; the Go `map[string]string` argument is modelled as
a pair list — both call sites pass a single pair.) -/
def executeScriptAt (strDec : String → Option String) (h : Handler)
    (query : List (String × String)) (script : String)
    (arguments : List String) (net : Net) : Outcome String :=
  match mustBuildURL h.base "/scripts" with
  | none => Outcome.crash
  | some u0 =>
    let u := { u0 with query := u0.query ++ query }
    let body := ReqBody.scripts (ScriptsBody.mk script arguments)
    match post strDec u body net with
    | Except.error e => Outcome.ret (Except.error e)
    | Except.ok result => Outcome.ret (Except.ok result)

/-- `executeScriptAtBlockHeight`: delegates to `executeScriptAt` with query
`{block_height: height}`. -/
def executeScriptAtBlockHeight (strDec : String → Option String) (h : Handler)
    (height script : String) (arguments : List String) (net : Net) :
    Outcome String :=
  executeScriptAt strDec h [("block_height", height)] script arguments net

/-- `executeScriptAtBlockID`: delegates to `executeScriptAt` with query
`{block_id: ID}`. -/
def executeScriptAtBlockID (strDec : String → Option String) (h : Handler)
    (ID script : String) (arguments : List String) (net : Net) :
    Outcome String :=
  executeScriptAt strDec h [("block_id", ID)] script arguments net

/-- `getTransaction`: GET `/transactions/{id}`, appending `expand=result`
only when the result-inclusion flag is set, wrapping errors with
"get transaction {id} failed". -/
def getTransaction (txDec : String → Option Transaction) (h : Handler)
    (ID : String) (includeResult : Bool) (net : Net) : Outcome Transaction :=
  match mustBuildURL h.base ("/transactions/" ++ ID) with
  | none => Outcome.crash
  | some u0 =>
    let u :=
      if includeResult then
        { u0 with query := u0.query ++ [("expand", "result")] }
      else u0
    match get txDec u net with
    | Except.error e =>
      Outcome.ret (Except.error
        (ClientError.ctxWrap ("get transaction " ++ ID ++ " failed") e))
    | Except.ok t => Outcome.ret (Except.ok t)

/-- `sendTransaction`: POST `/transactions` with the caller's pre-serialized
bytes; the decoded response is discarded. -/
def sendTransaction (txDec : String → Option Transaction) (h : Handler)
    (transaction : String) (net : Net) : Outcome Unit :=
  match mustBuildURL h.base "/transactions" with
  | none => Outcome.crash
  | some u =>
    match post txDec u (ReqBody.raw transaction) net with
    | Except.error e => Outcome.ret (Except.error e)
    | Except.ok _ => Outcome.ret (Except.ok ())

/-- A `get`-level error is a wrapped transport, status or decoding error. -/
def IsGetError (e : ClientError) : Prop :=
  (∃ m u c, e = ClientError.transport m u c) ∨
    (∃ m u s b, e = ClientError.httpStatus m u s b) ∨
    e = ClientError.decodeFail

/-- Two events agree on every field that `sdkEventToFlow` reads (everything
except the stored `Payload`). -/
def AgreeExceptPayload (e1 e2 : Event) : Prop :=
  e1.EType = e2.EType ∧ e1.TransactionID = e2.TransactionID ∧
    e1.TransactionIndex = e2.TransactionIndex ∧
    e1.EventIndex = e2.EventIndex ∧ e1.Value = e2.Value

/-! ## Lemmas: big-endian bytes -/

theorem beBytesAux_zero (fuel : Nat) : beBytesAux fuel 0 = [] := by
  cases fuel <;> rfl

theorem beBytesAux_congr :
    ∀ fuel fuel' n : Nat, n ≤ fuel → n ≤ fuel' →
      beBytesAux fuel n = beBytesAux fuel' n := by
  intro fuel
  induction fuel with
  | zero =>
    intro fuel' n hn _
    have : n = 0 := Nat.le_zero.mp hn
    subst this
    rw [beBytesAux_zero, beBytesAux_zero]
  | succ k ih =>
    intro fuel' n hn hn'
    cases n with
    | zero => rw [beBytesAux_zero, beBytesAux_zero]
    | succ m =>
      cases fuel' with
      | zero => exact absurd hn' (by omega)
      | succ k' =>
        show beBytesAux k ((m + 1) / 256) ++ [(m + 1) % 256] =
          beBytesAux k' ((m + 1) / 256) ++ [(m + 1) % 256]
        have hdiv : (m + 1) / 256 < m + 1 :=
          Nat.div_lt_self (Nat.succ_pos m) (by norm_num)
        rw [ih k' ((m + 1) / 256) (by omega) (by omega)]

/-- The defining recursion of `beBytes`, freed from its fuel. -/
theorem beBytes_eq (n : Nat) :
    beBytes n = if n = 0 then [] else beBytes (n / 256) ++ [n % 256] := by
  cases n with
  | zero => rfl
  | succ m =>
    show beBytesAux (m + 1) (m + 1) = _
    simp only [Nat.succ_ne_zero, if_neg, ite_false]
    show beBytesAux m ((m + 1) / 256) ++ [(m + 1) % 256] =
      beBytes ((m + 1) / 256) ++ [(m + 1) % 256]
    have hdiv : (m + 1) / 256 < m + 1 :=
      Nat.div_lt_self (Nat.succ_pos m) (by norm_num)
    rw [beBytesAux_congr m ((m + 1) / 256) ((m + 1) / 256) (by omega) le_rfl]
    rfl

theorem fromBE_append_singleton (l : List Nat) (b : Nat) :
    fromBE (l ++ [b]) = fromBE l * 256 + b := by
  unfold fromBE
  rw [List.foldl_append]
  rfl

theorem fromBE_beBytes (n : Nat) : fromBE (beBytes n) = n := by
  induction n using Nat.strong_induction_on with
  | _ n ih =>
    rw [beBytes_eq]
    by_cases h : n = 0
    · simp [h, fromBE]
    · rw [if_neg h, fromBE_append_singleton,
        ih (n / 256) (Nat.div_lt_self (Nat.pos_of_ne_zero h) (by norm_num))]
      omega

theorem beBytes_inj {n m : Nat} (h : beBytes n = beBytes m) : n = m := by
  have := fromBE_beBytes n
  rw [h, fromBE_beBytes] at this
  omega

theorem allBytes_beBytes (n : Nat) : AllBytes (beBytes n) := by
  induction n using Nat.strong_induction_on with
  | _ n ih =>
    rw [beBytes_eq]
    by_cases h : n = 0
    · simp [h, AllBytes]
    · rw [if_neg h]
      intro x hx
      rcases List.mem_append.mp hx with hx | hx
      · exact ih (n / 256) (Nat.div_lt_self (Nat.pos_of_ne_zero h) (by norm_num)) x hx
      · simp only [List.mem_singleton] at hx
        subst hx
        exact Nat.mod_lt _ (by norm_num)

theorem beBytes_ne_nil {n : Nat} (h : n ≠ 0) : beBytes n ≠ [] := by
  rw [beBytes_eq, if_neg h]
  simp

/-! ## Lemmas: RLP round trips and injectivity -/

theorem parseHeader_rlpHeader (base n : Nat) (rest : List Nat) :
    parseHeader base (rlpHeader base n ++ rest) = some (n, rest) := by
  by_cases h : n ≤ 55
  · rw [rlpHeader, if_pos h]
    show parseHeader base ((base + n) :: rest) = some (n, rest)
    simp only [parseHeader]
    rw [if_pos (by omega)]
    simp
  · rw [rlpHeader, if_neg h]
    have hne : n ≠ 0 := by omega
    have hlen : 1 ≤ (beBytes n).length := by
      have := beBytes_ne_nil hne
      cases hbe : beBytes n with
      | nil => exact absurd hbe this
      | cons a t => simp
    show parseHeader base
      ((base + 55 + (beBytes n).length) :: (beBytes n ++ rest)) = some (n, rest)
    simp only [parseHeader]
    rw [if_neg (by omega)]
    have hblen : base + 55 + (beBytes n).length - (base + 55) =
        (beBytes n).length := by omega
    rw [hblen, if_pos (by simp)]
    rw [List.take_left, List.drop_left, fromBE_beBytes]

theorem rlpHeader_cons (base n : Nat) :
    ∃ c cs, rlpHeader base n = c :: cs ∧ base ≤ c := by
  by_cases h : n ≤ 55
  · exact ⟨base + n, [], by rw [rlpHeader, if_pos h], by omega⟩
  · exact ⟨base + 55 + (beBytes n).length, beBytes n,
      by rw [rlpHeader, if_neg h], by omega⟩

theorem rlpDecodeBytes_header (b rest : List Nat) :
    rlpDecodeBytes (rlpHeader 128 b.length ++ (b ++ rest)) = some (b, rest) := by
  obtain ⟨c, cs, hc, hbase⟩ := rlpHeader_cons 128 b.length
  have hshape : rlpHeader 128 b.length ++ (b ++ rest) = c :: (cs ++ (b ++ rest)) := by
    rw [hc]; rfl
  rw [hshape]
  simp only [rlpDecodeBytes]
  rw [if_neg (by omega)]
  have hph : parseHeader 128 (c :: (cs ++ (b ++ rest))) = some (b.length, b ++ rest) := by
    rw [← hshape]; exact parseHeader_rlpHeader 128 b.length (b ++ rest)
  rw [hph]
  show (if b.length ≤ (b ++ rest).length then
      some ((b ++ rest).take b.length, (b ++ rest).drop b.length)
    else none) = some (b, rest)
  rw [if_pos (by simp), List.take_left, List.drop_left]

/-- Decoding is a left inverse of encoding for byte strings. -/
theorem rlpDecodeBytes_encode (b rest : List Nat) (hb : AllBytes b) :
    rlpDecodeBytes (rlpEncodeBytes b ++ rest) = some (b, rest) := by
  match b with
  | [] => exact rlpDecodeBytes_header [] rest
  | [x] =>
    by_cases hx : x < 128
    · show rlpDecodeBytes ((if x < 128 then [x] else rlpHeader 128 1 ++ [x]) ++ rest) =
        some ([x], rest)
      rw [if_pos hx]
      have hsing : ([x] : List Nat) ++ rest = x :: rest := rfl
      rw [hsing]
      simp only [rlpDecodeBytes]
      rw [if_pos hx]
    · show rlpDecodeBytes ((if x < 128 then [x] else rlpHeader 128 1 ++ [x]) ++ rest) =
        some ([x], rest)
      rw [if_neg hx]
      have : rlpHeader 128 1 ++ [x] ++ rest = rlpHeader 128 [x].length ++ ([x] ++ rest) := by
        simp
      rw [this]
      exact rlpDecodeBytes_header [x] rest
  | x :: y :: t =>
    show rlpDecodeBytes (rlpHeader 128 (x :: y :: t).length ++ (x :: y :: t) ++ rest) =
      some (x :: y :: t, rest)
    rw [List.append_assoc]
    exact rlpDecodeBytes_header (x :: y :: t) rest

/-- Byte-string encodings followed by arbitrary suffixes cancel. -/
theorem rlpEncodeBytes_cancel {a b s t : List Nat}
    (ha : AllBytes a) (hb : AllBytes b)
    (h : rlpEncodeBytes a ++ s = rlpEncodeBytes b ++ t) : a = b ∧ s = t := by
  have h1 := rlpDecodeBytes_encode a s ha
  have h2 := rlpDecodeBytes_encode b t hb
  rw [h, h2] at h1
  have hp := (Option.some.inj h1).symm
  exact ⟨congrArg Prod.fst hp, congrArg Prod.snd hp⟩

/-- Unsigned-integer encodings followed by arbitrary suffixes cancel. -/
theorem rlpEncodeUint_cancel {n m : Nat} {s t : List Nat}
    (h : rlpEncodeUint n ++ s = rlpEncodeUint m ++ t) : n = m ∧ s = t := by
  have := rlpEncodeBytes_cancel (allBytes_beBytes n) (allBytes_beBytes m) h
  exact ⟨beBytes_inj this.1, this.2⟩

/-- The fingerprint encoding is injective on the full five-field tuple (with
the two index fields read modulo `2^32`, as the source narrows them). -/
theorem fingerprint_inj {e1 e2 : Event}
    (h1 : ValidEvent e1) (h2 : ValidEvent e2)
    (h : e1.Fingerprint = e2.Fingerprint) :
    e1.TransactionID = e2.TransactionID ∧
      e1.EventIndex % 2 ^ 32 = e2.EventIndex % 2 ^ 32 ∧
      e1.EType = e2.EType ∧
      e1.TransactionIndex % 2 ^ 32 = e2.TransactionIndex % 2 ^ 32 ∧
      e1.Payload = e2.Payload := by
  obtain ⟨h1T, h1I, _, h1P⟩ := h1
  obtain ⟨h2T, h2I, _, h2P⟩ := h2
  unfold Event.Fingerprint rlpList at h
  have hpay :
      rlpEncodeBytes e1.TransactionID ++
        (rlpEncodeUint (e1.EventIndex % 2 ^ 32) ++
          (rlpEncodeBytes e1.EType ++
            (rlpEncodeUint (e1.TransactionIndex % 2 ^ 32) ++
              (rlpEncodeBytes e1.Payload ++ [])))) =
      rlpEncodeBytes e2.TransactionID ++
        (rlpEncodeUint (e2.EventIndex % 2 ^ 32) ++
          (rlpEncodeBytes e2.EType ++
            (rlpEncodeUint (e2.TransactionIndex % 2 ^ 32) ++
              (rlpEncodeBytes e2.Payload ++ [])))) := by
    have p1 := parseHeader_rlpHeader 192
      ([rlpEncodeBytes e1.TransactionID,
        rlpEncodeUint (e1.EventIndex % 2 ^ 32),
        rlpEncodeBytes e1.EType,
        rlpEncodeUint (e1.TransactionIndex % 2 ^ 32),
        rlpEncodeBytes e1.Payload] : List (List Nat)).flatten.length
      ([rlpEncodeBytes e1.TransactionID,
        rlpEncodeUint (e1.EventIndex % 2 ^ 32),
        rlpEncodeBytes e1.EType,
        rlpEncodeUint (e1.TransactionIndex % 2 ^ 32),
        rlpEncodeBytes e1.Payload] : List (List Nat)).flatten
    have p2 := parseHeader_rlpHeader 192
      ([rlpEncodeBytes e2.TransactionID,
        rlpEncodeUint (e2.EventIndex % 2 ^ 32),
        rlpEncodeBytes e2.EType,
        rlpEncodeUint (e2.TransactionIndex % 2 ^ 32),
        rlpEncodeBytes e2.Payload] : List (List Nat)).flatten.length
      ([rlpEncodeBytes e2.TransactionID,
        rlpEncodeUint (e2.EventIndex % 2 ^ 32),
        rlpEncodeBytes e2.EType,
        rlpEncodeUint (e2.TransactionIndex % 2 ^ 32),
        rlpEncodeBytes e2.Payload] : List (List Nat)).flatten
    rw [h] at p1
    rw [p2] at p1
    have := Option.some.inj p1
    have hflat := (Prod.mk.injEq _ _ _ _ ▸ this).2
    simpa [List.flatten] using hflat.symm
  obtain ⟨hTx, hrest1⟩ := rlpEncodeBytes_cancel h1I h2I hpay
  obtain ⟨hEI, hrest2⟩ := rlpEncodeUint_cancel hrest1
  obtain ⟨hTy, hrest3⟩ := rlpEncodeBytes_cancel h1T h2T hrest2
  obtain ⟨hTI, hrest4⟩ := rlpEncodeUint_cancel hrest3
  obtain ⟨hPl, _⟩ := rlpEncodeBytes_cancel h1P h2P hrest4
  exact ⟨hTx, hEI, hTy, hTI, hPl⟩

/-! ## Lemmas: hex round trip -/

theorem hexDigitVal_hexDigit {n : Nat} (h : n < 16) :
    hexDigitVal (hexDigit n) = some n := by
  interval_cases n <;> decide

theorem hexDecodePairs_renderChars (bs : List Nat) (h : AllBytes bs) :
    hexDecodePairs (hexRenderChars bs) = some bs := by
  induction bs with
  | nil => rfl
  | cons b bs ih =>
    have hb : b < 256 := h b (List.mem_cons_self b bs)
    have hbs : AllBytes bs := fun x hx => h x (List.mem_cons_of_mem b hx)
    show hexDecodePairs
      (hexDigit (b / 16) :: hexDigit (b % 16) :: hexRenderChars bs) = some (b :: bs)
    simp only [hexDecodePairs]
    rw [hexDigitVal_hexDigit (by omega), hexDigitVal_hexDigit (Nat.mod_lt _ (by norm_num)),
      ih hbs]
    show some ((b / 16 * 16 + b % 16) :: bs) = some (b :: bs)
    have : b / 16 * 16 + b % 16 = b := by omega
    rw [this]

theorem hexDecodeString_hexRender (bs : List Nat) (h : AllBytes bs) :
    hexDecodeString (hexRender bs) = some bs := by
  unfold hexDecodeString hexRender
  exact hexDecodePairs_renderChars bs h

/-! ## Lemmas: events hash aggregator -/

theorem allBytes_merkleRoot (events : List FlowEvent) (root : List Nat)
    (h : EventsMerkleRootHash events = Except.ok root) : AllBytes root := by
  unfold EventsMerkleRootHash at h
  have := Except.ok.inj h
  subst this
  intro x hx
  obtain ⟨i, _, hix⟩ := List.mem_map.mp hx
  omega

theorem sdkEventToFlow_payload_free {e1 e2 : Event}
    (h : AgreeExceptPayload e1 e2) : sdkEventToFlow e1 = sdkEventToFlow e2 := by
  obtain ⟨hT, hTx, hTI, hEI, hV⟩ := h
  unfold sdkEventToFlow
  rw [hT, hTx, hTI, hEI, hV]

theorem sdkEventsToFlow_payload_free {es1 es2 : List Event}
    (h : List.Forall₂ AgreeExceptPayload es1 es2) :
    sdkEventsToFlow es1 = sdkEventsToFlow es2 := by
  induction h with
  | nil => rfl
  | cons hab _ ih =>
    show sdkEventsToFlow (_ :: _) = sdkEventsToFlow (_ :: _)
    simp only [sdkEventsToFlow]
    rw [sdkEventToFlow_payload_free hab, ih]

/-! ## Claim C2 -/

/-- C2: two events with equal `TransactionID` and equal `EventIndex` have the
same `Event.ID()` identifier string, whatever their `Type`, `Value`,
`Payload` or `TransactionIndex` are — the identity projection `Encode` reads
only those two fields, and the identifier is a function of it. -/
theorem event_id_depends_only_on_position (e1 e2 : Event)
    (hTx : e1.TransactionID = e2.TransactionID)
    (hEI : e1.EventIndex = e2.EventIndex) : e1.ID = e2.ID := by
  unfold Event.ID Event.Encode
  rw [hTx, hEI]

/-- Witness for C2: two concrete events differing in `Type`, `Value`,
`Payload` and `TransactionIndex` but sharing position get equal identifiers. -/
theorem event_id_depends_only_on_position_witness :
    Event.ID (Event.mk [97] (List.replicate 32 1) 5 3 (CadenceEvent.mk []) [9]) =
      Event.ID (Event.mk [98] (List.replicate 32 1) 7 3
        (CadenceEvent.mk [CadenceValue.other 1]) []) :=
  event_id_depends_only_on_position _ _ rfl rfl

/-! ## Claim C3 (corrected) -/

/-- C3 counterexample: the claim "changing exactly one of the five fields
always changes `Event.Fingerprint()`" fails, because the source narrows
`TransactionIndex` (and `EventIndex`) to `uint32`: two events that differ
only in `TransactionIndex` (`2^32` versus `0`) have equal fingerprints. -/
theorem fingerprint_uint32_truncation_cex :
    (Event.mk [102] (List.replicate 32 0) (2 ^ 32) 0
        (CadenceEvent.mk []) []).TransactionIndex ≠
      (Event.mk [102] (List.replicate 32 0) 0 0
        (CadenceEvent.mk []) []).TransactionIndex ∧
    Event.Fingerprint
        (Event.mk [102] (List.replicate 32 0) (2 ^ 32) 0 (CadenceEvent.mk []) []) =
      Event.Fingerprint
        (Event.mk [102] (List.replicate 32 0) 0 0 (CadenceEvent.mk []) []) := by
  exact ⟨by decide, by decide⟩

/-- C3 (amended): for a well-formed event, changing exactly one of
`TransactionID`, `Type` or `Payload` always changes the fingerprint; changing
`EventIndex` or `TransactionIndex` changes the fingerprint exactly when the
new value differs from the old one modulo `2^32` (the source widens both
indices to `uint32`, so larger values are truncated). -/
theorem fingerprint_field_sensitivity (e : Event) (he : ValidEvent e) :
    (∀ t' : List Nat, AllBytes t' → t'.length = 32 → t' ≠ e.TransactionID →
      Event.Fingerprint { e with TransactionID := t' } ≠ e.Fingerprint) ∧
    (∀ n' : Nat, n' % 2 ^ 32 ≠ e.EventIndex % 2 ^ 32 →
      Event.Fingerprint { e with EventIndex := n' } ≠ e.Fingerprint) ∧
    (∀ t' : List Nat, AllBytes t' → t' ≠ e.EType →
      Event.Fingerprint { e with EType := t' } ≠ e.Fingerprint) ∧
    (∀ n' : Nat, n' % 2 ^ 32 ≠ e.TransactionIndex % 2 ^ 32 →
      Event.Fingerprint { e with TransactionIndex := n' } ≠ e.Fingerprint) ∧
    (∀ p' : List Nat, AllBytes p' → p' ≠ e.Payload →
      Event.Fingerprint { e with Payload := p' } ≠ e.Fingerprint) := by
  obtain ⟨heT, heI, heL, heP⟩ := he
  refine ⟨?_, ?_, ?_, ?_, ?_⟩
  · intro t' ht' hl' hne hfp
    exact hne (@fingerprint_inj { e with TransactionID := t' } e
      ⟨heT, ht', hl', heP⟩ ⟨heT, heI, heL, heP⟩ hfp).1
  · intro n' hne hfp
    exact hne (@fingerprint_inj { e with EventIndex := n' } e
      ⟨heT, heI, heL, heP⟩ ⟨heT, heI, heL, heP⟩ hfp).2.1
  · intro t' ht' hne hfp
    exact hne (@fingerprint_inj { e with EType := t' } e
      ⟨ht', heI, heL, heP⟩ ⟨heT, heI, heL, heP⟩ hfp).2.2.1
  · intro n' hne hfp
    exact hne (@fingerprint_inj { e with TransactionIndex := n' } e
      ⟨heT, heI, heL, heP⟩ ⟨heT, heI, heL, heP⟩ hfp).2.2.2.1
  · intro p' hp' hne hfp
    exact hne (@fingerprint_inj { e with Payload := p' } e
      ⟨heT, heI, heL, hp'⟩ ⟨heT, heI, heL, heP⟩ hfp).2.2.2.2

/-- Witness for C3 (amended): changing only the payload of a concrete event
changes its fingerprint. -/
theorem fingerprint_field_sensitivity_witness :
    Event.Fingerprint
        (Event.mk [102] (List.replicate 32 0) 0 0 (CadenceEvent.mk []) [5]) ≠
      Event.Fingerprint
        (Event.mk [102] (List.replicate 32 0) 0 0 (CadenceEvent.mk []) []) :=
  (fingerprint_field_sensitivity
      (Event.mk [102] (List.replicate 32 0) 0 0 (CadenceEvent.mk []) [])
      (by refine ⟨by decide, by decide, by decide, by decide⟩)).2.2.2.2
    [5] (by decide) (by decide)

/-! ## Claim C4 -/

/-- C4: `CalculateEventsHash` never reads the stored `Payload` field: two
event lists of equal length agreeing on `Type`, `TransactionID`,
`TransactionIndex`, `EventIndex` and `Value` — with arbitrarily different
payloads — hash to the same result, because `sdkEventToFlow` re-derives each
payload by canonically JSON-encoding `Value`. -/
theorem calculateEventsHash_ignores_payload (es1 es2 : List Event)
    (h : List.Forall₂ AgreeExceptPayload es1 es2) :
    CalculateEventsHash es1 = CalculateEventsHash es2 := by
  unfold CalculateEventsHash
  rw [sdkEventsToFlow_payload_free h]

/-- Witness for C4: two singleton lists whose events differ only in the
stored payload hash identically. -/
theorem calculateEventsHash_ignores_payload_witness :
    CalculateEventsHash
        [Event.mk [3] (List.replicate 32 2) 1 0 (CadenceEvent.mk []) [1]] =
      CalculateEventsHash
        [Event.mk [3] (List.replicate 32 2) 1 0 (CadenceEvent.mk []) [2]] :=
  calculateEventsHash_ignores_payload _ _
    (List.Forall₂.cons ⟨rfl, rfl, rfl, rfl, rfl⟩ List.Forall₂.nil)

/-! ## Claim C5 -/

/-- C5: `CalculateEventsHash` on the empty event sequence succeeds: the
conversion of no events cannot fail, the (modelled) Merkle root is a
well-defined 32-byte identifier, and its hex rendering always decodes back. -/
theorem calculateEventsHash_empty_ok :
    ∃ hsh : List Nat, CalculateEventsHash [] = Except.ok hsh := by
  obtain ⟨root, hroot⟩ : ∃ r, EventsMerkleRootHash [] = Except.ok r := ⟨_, rfl⟩
  refine ⟨root, ?_⟩
  unfold CalculateEventsHash
  show (match EventsMerkleRootHash [] with
    | Except.error e => Except.error e
    | Except.ok id =>
      match hexDecodeString (hexRender id) with
      | none => Except.error HashFailure.decodingError
      | some h => Except.ok h) = Except.ok root
  rw [hroot]
  show (match hexDecodeString (hexRender root) with
    | none => Except.error HashFailure.decodingError
    | some h => Except.ok h) = Except.ok root
  rw [hexDecodeString_hexRender root (allBytes_merkleRoot [] root hroot)]

/-! ## Claim C7 -/

/-- C7: the three preset constructors configure exactly the documented base
endpoint literals, including the malformed emulator one (missing `//` after
the scheme). -/
theorem preset_handler_endpoints :
    NewDefaultEmulatorHandler.base = "http:127.0.0.1:8888/v1" ∧
      NewDefaultTestnetHandler.base = "https://rest-testnet.onflow.org/v1/" ∧
      NewDefaultMainnetHandler.base = "https://rest-mainnet.onflow.org/v1/" :=
  ⟨rfl, rfl, rfl⟩

/-! ## Claim C9 -/

/-- C9: on a well-formed account-creation event — one whose `Value.Fields`
has an address-typed value in position zero — `AccountCreatedEvent.Address()`
returns the `Address` built from that field's raw bytes. -/
theorem accountCreatedEvent_address_ok (evt : AccountCreatedEvent)
    (bs : List Nat) (rest : List CadenceValue)
    (h : (Event.Value evt).fields = CadenceValue.address bs :: rest) :
    AccountCreatedEvent.Address evt = some (BytesToAddress bs) := by
  unfold AccountCreatedEvent.Address
  rw [h]

/-- Witness for C9: a concrete account-creation event with an 8-byte address
in field zero. -/
theorem accountCreatedEvent_address_ok_witness :
    AccountCreatedEvent.Address
        (Event.mk [1] (List.replicate 32 0) 0 0
          (CadenceEvent.mk [CadenceValue.address [0, 0, 0, 0, 0, 0, 0, 1]]) []) =
      some (BytesToAddress [0, 0, 0, 0, 0, 0, 0, 1]) :=
  accountCreatedEvent_address_ok _ _ _ rfl

/-! ## Lemmas: HTTP transport -/

/-- The error message of a status-threshold failure carries the numeric
status code and the raw response body verbatim. -/
theorem render_httpStatus_contains (method url : String) (code : Nat)
    (body : String) :
    ContainsSub (render (ClientError.httpStatus method url code body))
        (toString code) ∧
      ContainsSub (render (ClientError.httpStatus method url code body)) body := by
  constructor
  · refine ⟨"HTTP " ++ method ++ " " ++ url ++ " failed, status code: ",
      ", response :" ++ body, ?_⟩
    simp [render, String.append_assoc]
  · refine ⟨"HTTP " ++ method ++ " " ++ url ++ " failed, status code: " ++
      toString code ++ ", response :", "", ?_⟩
    simp [render, String.append_assoc]

/-- Every error produced by the `get` primitive is a transport, status or
decoding error. -/
theorem get_error_isGetError {γ : Type} (decode : String → Option γ)
    (u : URL) (net : Net) {e : ClientError}
    (h : get decode u net = Except.error e) : IsGetError e := by
  cases hnet : net (Request.mk "GET" u ReqBody.empty) with
  | fail cause =>
    simp only [get, hnet] at h
    exact Or.inl ⟨_, _, _, (Except.error.inj h).symm⟩
  | ok status body =>
    simp only [get, hnet] at h
    by_cases h4 : 400 ≤ status
    · rw [if_pos h4] at h
      exact Or.inr (Or.inl ⟨_, _, _, _, (Except.error.inj h).symm⟩)
    · rw [if_neg h4] at h
      cases hd : decode body with
      | none =>
        rw [hd] at h
        exact Or.inr (Or.inr (Except.error.inj h).symm)
      | some v => rw [hd] at h; cases h

/-! ## Claim C6 -/

/-- C6: for a completed round trip, `get` and `post` treat any status of 400
or greater as failure — the result is the status error (independently of the
decoder, which is never applied) and its message contains both the numeric
code and the raw body verbatim — while a status below 400 JSON-decodes the
body into the destination. -/
theorem get_post_status_threshold {γ : Type} (decode : String → Option γ)
    (u : URL) (net : Net) (status : Nat) (respBody reqBytes : String)
    (hget : net (Request.mk "GET" u ReqBody.empty) = RoundTrip.ok status respBody)
    (hpost : net (Request.mk "POST" u (ReqBody.raw reqBytes)) =
      RoundTrip.ok status respBody) :
    (400 ≤ status →
      get decode u net =
        Except.error (ClientError.httpStatus "GET" (urlString u) status respBody) ∧
      post decode u (ReqBody.raw reqBytes) net =
        Except.error (ClientError.httpStatus "POST" (urlString u) status respBody) ∧
      ContainsSub
        (render (ClientError.httpStatus "GET" (urlString u) status respBody))
        (toString status) ∧
      ContainsSub
        (render (ClientError.httpStatus "GET" (urlString u) status respBody))
        respBody ∧
      ContainsSub
        (render (ClientError.httpStatus "POST" (urlString u) status respBody))
        (toString status) ∧
      ContainsSub
        (render (ClientError.httpStatus "POST" (urlString u) status respBody))
        respBody) ∧
    (status < 400 →
      get decode u net = (match decode respBody with
        | none => Except.error ClientError.decodeFail
        | some v => Except.ok v) ∧
      post decode u (ReqBody.raw reqBytes) net = (match decode respBody with
        | none => Except.error ClientError.decodeFail
        | some v => Except.ok v)) := by
  constructor
  · intro h4
    refine ⟨?_, ?_, (render_httpStatus_contains _ _ _ _).1,
      (render_httpStatus_contains _ _ _ _).2,
      (render_httpStatus_contains _ _ _ _).1,
      (render_httpStatus_contains _ _ _ _).2⟩
    · simp only [get, hget]
      rw [if_pos h4]
    · simp only [post, hpost]
      rw [if_pos h4]
  · intro h4
    constructor
    · simp only [get, hget]
      rw [if_neg (by omega)]
    · simp only [post, hpost]
      rw [if_neg (by omega)]

/-- Witness for C6: a 404 response with body "oops" yields the status error
on both primitives and its message contains "404" and "oops". -/
theorem get_post_status_threshold_witness :
    get (fun s => some s) (URL.mk "http" "x" [])
        (fun _ => RoundTrip.ok 404 "oops") =
      Except.error (ClientError.httpStatus "GET"
        (urlString (URL.mk "http" "x" [])) 404 "oops") ∧
    post (fun s => some s) (URL.mk "http" "x" []) (ReqBody.raw "tx")
        (fun _ => RoundTrip.ok 404 "oops") =
      Except.error (ClientError.httpStatus "POST"
        (urlString (URL.mk "http" "x" [])) 404 "oops") ∧
    ContainsSub
      (render (ClientError.httpStatus "GET"
        (urlString (URL.mk "http" "x" [])) 404 "oops")) (toString 404) ∧
    ContainsSub
      (render (ClientError.httpStatus "GET"
        (urlString (URL.mk "http" "x" [])) 404 "oops")) "oops" := by
  have t := get_post_status_threshold (fun s => some s) (URL.mk "http" "x" [])
    (fun _ => RoundTrip.ok 404 "oops") 404 "oops" "tx" rfl rfl
  obtain ⟨hg, hp, hc1, hc2, _, _⟩ := t.1 (by norm_num)
  exact ⟨hg, hp, hc1, hc2⟩

/-! ## Claim C1 -/

/-- C1: for every server behaviour, `getBlockByHeight` either returns the
operation-wrapped transport/status/decoding error from `get`, or the
NotFound error with message exactly "blocks not found"; it never returns a
list of blocks at all (in particular never a non-empty one), because the
decode destination is passed by value and the caller's nil slice is never
populated. -/
theorem getBlockByHeight_always_errors {γ : Type} (jsonDec : String → Option γ)
    (h : Handler) (height : String) (net : Net) (u0 : URL)
    (hu : mustBuildURL h.base "/blocks" = some u0) :
    (∃ e : ClientError,
      getBlockByHeight jsonDec h height net = Outcome.ret (Except.error e) ∧
      (e = ClientError.errorf "blocks not found" ∨
        ∃ e', IsGetError e' ∧
          e = ClientError.ctxWrap
            ("get block by height " ++ height ++ " failed") e')) ∧
    ∀ bs : List Block,
      getBlockByHeight jsonDec h height net ≠ Outcome.ret (Except.ok bs) := by
  have hmain :
      ∃ e : ClientError,
        getBlockByHeight jsonDec h height net = Outcome.ret (Except.error e) ∧
        (e = ClientError.errorf "blocks not found" ∨
          ∃ e', IsGetError e' ∧
            e = ClientError.ctxWrap
              ("get block by height " ++ height ++ " failed") e') := by
    cases hg : get jsonDec { u0 with query := u0.query ++ [("height", height)] }
        net with
    | error e =>
      refine ⟨ClientError.ctxWrap ("get block by height " ++ height ++ " failed") e,
        ?_, Or.inr ⟨e, get_error_isGetError _ _ _ hg, rfl⟩⟩
      simp only [getBlockByHeight, hu, hg]
    | ok v =>
      refine ⟨ClientError.errorf "blocks not found", ?_, Or.inl rfl⟩
      simp only [getBlockByHeight, hu, hg, List.length_nil, if_pos]
  refine ⟨hmain, ?_⟩
  intro bs hcontra
  obtain ⟨e, he, _⟩ := hmain
  rw [he] at hcontra
  cases hcontra

/-- Witness for C1: against a server answering 200 with body "[]" (and a
decoder that accepts it), the operation still reports "blocks not found" and
does not return the non-empty list `[Block.mk "b"]`. -/
theorem getBlockByHeight_always_errors_witness :
    getBlockByHeight (fun _ => some ()) NewDefaultMainnetHandler "12"
        (fun _ => RoundTrip.ok 200 "[]") ≠
      Outcome.ret (Except.ok [Block.mk "b"]) :=
  (getBlockByHeight_always_errors (fun _ => some ()) NewDefaultMainnetHandler
      "12" (fun _ => RoundTrip.ok 200 "[]")
      (URL.mk "https" "//rest-mainnet.onflow.org/v1//blocks" [])
      (by decide)).2 [Block.mk "b"]

/-! ## Claim C8 -/

/-- C8: `executeScriptAtBlockHeight` delegates to the generic script
execution, which issues exactly one POST to the URL built from path
"/scripts" with query `block_height={height}` and the scripts body carrying
the script text and the argument list; `executeScriptAtBlockID` behaves
identically except that the single query pair is `block_id={id}`. -/
theorem executeScript_request_shape (strDec : String → Option String)
    (h : Handler) (height ID script : String) (args : List String) (net : Net)
    (u0 : URL) (hu : mustBuildURL h.base "/scripts" = some u0) :
    executeScriptAtBlockHeight strDec h height script args net =
      Outcome.ret (post strDec
        { u0 with query := u0.query ++ [("block_height", height)] }
        (ReqBody.scripts (ScriptsBody.mk script args)) net) ∧
    executeScriptAtBlockID strDec h ID script args net =
      Outcome.ret (post strDec
        { u0 with query := u0.query ++ [("block_id", ID)] }
        (ReqBody.scripts (ScriptsBody.mk script args)) net) ∧
    executeScriptAtBlockHeight strDec h height script args net =
      executeScriptAt strDec h [("block_height", height)] script args net ∧
    executeScriptAtBlockID strDec h ID script args net =
      executeScriptAt strDec h [("block_id", ID)] script args net := by
  refine ⟨?_, ?_, rfl, rfl⟩
  · show executeScriptAt strDec h [("block_height", height)] script args net = _
    cases hp : post strDec
        { u0 with query := u0.query ++ [("block_height", height)] }
        (ReqBody.scripts (ScriptsBody.mk script args)) net with
    | error e => simp only [executeScriptAt, hu, hp]
    | ok r => simp only [executeScriptAt, hu, hp]
  · show executeScriptAt strDec h [("block_id", ID)] script args net = _
    cases hp : post strDec
        { u0 with query := u0.query ++ [("block_id", ID)] }
        (ReqBody.scripts (ScriptsBody.mk script args)) net with
    | error e => simp only [executeScriptAt, hu, hp]
    | ok r => simp only [executeScriptAt, hu, hp]

/-- Witness for C8: concrete request shape against the testnet handler. -/
theorem executeScript_request_shape_witness :
    executeScriptAtBlockHeight (fun s => some s) NewDefaultTestnetHandler
        "7" "main" ["a"] (fun _ => RoundTrip.ok 200 "r") =
      Outcome.ret (post (fun s => some s)
        (URL.mk "https" "//rest-testnet.onflow.org/v1//scripts"
          [("block_height", "7")])
        (ReqBody.scripts (ScriptsBody.mk "main" ["a"]))
        (fun _ => RoundTrip.ok 200 "r")) :=
  (executeScript_request_shape (fun s => some s) NewDefaultTestnetHandler
      "7" "x" "main" ["a"] (fun _ => RoundTrip.ok 200 "r")
      (URL.mk "https" "//rest-testnet.onflow.org/v1//scripts" [])
      (by decide)).1

/-! ## Claim C10 (corrected) -/

/-- C10 counterexample: the claim names the empty string as a base that
`url.ParseRequestURI` rejects and that therefore makes every operation crash
on a nil URL — but `mustBuildURL` parses the concatenation of base and path,
and `"" + "/blocks" = "/blocks"` is an accepted rooted path, so the URL is
non-nil and the operation does not crash. -/
theorem empty_base_no_crash_cex :
    parseRequestURI "" = none ∧
    mustBuildURL "" "/blocks" = some (URL.mk "" "/blocks" []) ∧
    getBlockByHeight (fun _ => (none : Option Unit)) (Handler.mk "") "7"
        (fun _ => RoundTrip.ok 500 "x") ≠ Outcome.crash := by
  refine ⟨rfl, by decide, by decide⟩

/-- C10 (amended): `NewHandler` accepts any base string without error; for
every base such that `url.ParseRequestURI` rejects the concatenation of the
base with the operation's path (e.g. a scheme-less, non-rooted base such as
"foo" — but not the empty string, whose concatenation with a rooted path
parses), `mustBuildURL` discards the parse error and returns a nil URL, and
the client operation dereferences it and crashes instead of returning an
error. -/
theorem invalid_base_crash {γ : Type} (jsonDec : String → Option γ)
    (blockDec : String → Option Block) (accountDec : String → Option Account)
    (collectionDec : String → Option Collection)
    (txDec : String → Option Transaction) (strDec : String → Option String)
    (base ID address height script tx : String) (args : List String)
    (includeResult : Bool) (net : Net) :
    NewHandler base = Except.ok (Handler.mk base) ∧
    (parseRequestURI (base ++ "/blocks") = none →
      getBlockByHeight jsonDec (Handler.mk base) height net = Outcome.crash) ∧
    (parseRequestURI (base ++ ("/blocks/" ++ ID)) = none →
      getBlockByID blockDec (Handler.mk base) ID net = Outcome.crash) ∧
    (parseRequestURI (base ++ ("/accounts/" ++ address)) = none →
      getAccount accountDec (Handler.mk base) address height net = Outcome.crash) ∧
    (parseRequestURI (base ++ ("/collections/" ++ ID)) = none →
      getCollection collectionDec (Handler.mk base) ID net = Outcome.crash) ∧
    (parseRequestURI (base ++ "/scripts") = none →
      executeScriptAtBlockHeight strDec (Handler.mk base) height script args net =
        Outcome.crash) ∧
    (parseRequestURI (base ++ ("/transactions/" ++ ID)) = none →
      getTransaction txDec (Handler.mk base) ID includeResult net = Outcome.crash) ∧
    (parseRequestURI (base ++ "/transactions") = none →
      sendTransaction txDec (Handler.mk base) tx net = Outcome.crash) := by
  refine ⟨rfl, ?_, ?_, ?_, ?_, ?_, ?_, ?_⟩
  · intro hp
    simp only [getBlockByHeight, mustBuildURL, hp]
  · intro hp
    simp only [getBlockByID, mustBuildURL, hp]
  · intro hp
    simp only [getAccount, mustBuildURL, hp]
  · intro hp
    simp only [getCollection, mustBuildURL, hp]
  · intro hp
    show executeScriptAt strDec (Handler.mk base) [("block_height", height)]
      script args net = Outcome.crash
    simp only [executeScriptAt, mustBuildURL, hp]
  · intro hp
    simp only [getTransaction, mustBuildURL, hp]
  · intro hp
    simp only [sendTransaction, mustBuildURL, hp]

/-- Witness for C10 (amended): with the scheme-less base "foo" every modelled
client operation crashes on the discarded parse failure. -/
theorem invalid_base_crash_witness :
    getBlockByHeight (fun _ => (none : Option Unit)) (Handler.mk "foo") "5"
        (fun _ => RoundTrip.ok 200 "x") = Outcome.crash ∧
    getBlockByID (fun _ => none) (Handler.mk "foo") "ab"
        (fun _ => RoundTrip.ok 200 "x") = Outcome.crash ∧
    getAccount (fun _ => none) (Handler.mk "foo") "ab" "5"
        (fun _ => RoundTrip.ok 200 "x") = Outcome.crash ∧
    getCollection (fun _ => none) (Handler.mk "foo") "ab"
        (fun _ => RoundTrip.ok 200 "x") = Outcome.crash ∧
    executeScriptAtBlockHeight (fun _ => none) (Handler.mk "foo") "5" "m" []
        (fun _ => RoundTrip.ok 200 "x") = Outcome.crash ∧
    getTransaction (fun _ => none) (Handler.mk "foo") "ab" true
        (fun _ => RoundTrip.ok 200 "x") = Outcome.crash ∧
    sendTransaction (fun _ => none) (Handler.mk "foo") "tx"
        (fun _ => RoundTrip.ok 200 "x") = Outcome.crash := by
  have t := invalid_base_crash (fun _ => (none : Option Unit)) (fun _ => none)
    (fun _ => none) (fun _ => none) (fun _ => none) (fun _ => none)
    "foo" "ab" "ab" "5" "m" "tx" [] true (fun _ => RoundTrip.ok 200 "x")
  exact ⟨t.2.1 (by decide), t.2.2.1 (by decide), t.2.2.2.1 (by decide),
    t.2.2.2.2.1 (by decide), t.2.2.2.2.2.1 (by decide),
    t.2.2.2.2.2.2.1 (by decide), t.2.2.2.2.2.2.2 (by decide)⟩

end FlowSDK
